import Mathlib

/-!
Verification development for the webwright interactive shell.

This file gives a shallow embedding of the session-orchestration pipeline of
the repository: the input classifier (`lib/shell/parser.py`), the command
executor with its built-ins (`lib/shell/executor.py`), the translator output
post-processing (`lib/shell/translator.py`), the input buffer / context
extractor (`lib/shell/input_buffer.py`) and the orchestrator's pending-command
triage state machine (`webwright/main.py`).

External collaborators (the process-spawning primitive, the filesystem, the
clipboard and stdin readers) are modelled as explicit environment records so
that every function here is a total, executable Lean definition.  Python
exceptions that escape a function (`SystemExit` from the `exit` built-in,
`ValueError` from `shlex.split`) are modelled with `Except`.  Paths follow
POSIX semantics, matching the `os.path` functions the source calls.

Python string primitives (`strip`, `split`, `lower`, `replace`, `in`,
`startswith`, `endswith`) are modelled by structurally recursive functions
over `List Char` so that every definition evaluates inside the kernel;
they agree with CPython on the ASCII strings the program manipulates.
-/

namespace Webwright

/-! ## Python string primitives -/

/-- Characters stripped by Python `str.strip()` / matched by `\s` (ASCII part). -/
def pyIsSpace (c : Char) : Bool :=
  c = ' ' ∨ c = '\t' ∨ c = '\n' ∨ c = '\r' ∨ c = '\x0b' ∨ c = '\x0c'

/-- Python `str.strip()` with no arguments. -/
def pyStrip (s : String) : String :=
  String.mk (((s.data.dropWhile pyIsSpace).reverse.dropWhile pyIsSpace).reverse)

/-- Lowercase one ASCII character (Python `str.lower`, ASCII fragment). -/
def charLower (c : Char) : Char :=
  if 'A' ≤ c ∧ c ≤ 'Z' then Char.ofNat (c.toNat + 32) else c

/-- Python `str.lower()` (ASCII fragment). -/
def pyLower (s : String) : String := String.mk (s.data.map charLower)

/-- Python `str.startswith(pre)`. -/
def pyStartsWith (s pre : String) : Bool := pre.data.isPrefixOf s.data

/-- Python `str.endswith(suf)`. -/
def pyEndsWith (s suf : String) : Bool :=
  suf.data.reverse.isPrefixOf s.data.reverse

/-- Substring occurrence test on character lists. -/
def containsL (pat : List Char) : List Char → Bool
  | [] => pat.isPrefixOf []
  | c :: cs => pat.isPrefixOf (c :: cs) ∨ containsL pat cs

/-- Python substring test `pat in s` (for non-empty `pat`). -/
def strContains (s pat : String) : Bool := containsL pat.data s.data

/-- Helper for whitespace splitting: `cur` holds the reversed characters of
the token in progress. -/
def wsSplitGo : List Char → List Char → List String
  | [], cur => if cur = [] then [] else [String.mk cur.reverse]
  | c :: cs, cur =>
      if pyIsSpace c then
        (if cur = [] then wsSplitGo cs []
         else String.mk cur.reverse :: wsSplitGo cs [])
      else wsSplitGo cs (c :: cur)

/-- Python `str.split()` with no arguments: split on whitespace runs,
dropping empty pieces. -/
def pySplitWs (s : String) : List String := wsSplitGo s.data []

/-- Helper for `strSplitOn`: split `l` at non-overlapping occurrences of the
non-empty separator `sep`.  `skip` counts remaining characters of a matched
separator occurrence still to consume; `cur` is the reversed current piece. -/
def splitSepGo (sep : List Char) : List Char → Nat → List Char → List (List Char)
  | [], _, cur => [cur.reverse]
  | _ :: cs, Nat.succ n, cur => splitSepGo sep cs n cur
  | c :: cs, 0, cur =>
      if sep.isPrefixOf (c :: cs) then
        cur.reverse :: splitSepGo sep cs (sep.length - 1) []
      else splitSepGo sep cs 0 (c :: cur)

/-- Python `str.split(sep)` for a non-empty separator (also the splitting
behaviour of Lean's `String.splitOn`). -/
def strSplitOn (s sep : String) : List String :=
  if sep.data = [] then [s]
  else (splitSepGo sep.data s.data 0 []).map String.mk

/-- Helper for `pyReplace`, with the same skip-counter scheme. -/
def replaceGo (pat repl : List Char) : List Char → Nat → List Char
  | [], _ => []
  | _ :: cs, Nat.succ n => replaceGo pat repl cs n
  | c :: cs, 0 =>
      if pat.isPrefixOf (c :: cs) then
        repl ++ replaceGo pat repl cs (pat.length - 1)
      else c :: replaceGo pat repl cs 0

/-- Python `str.replace(pat, repl)` for a non-empty pattern: every
non-overlapping occurrence, scanned left to right. -/
def pyReplace (s pat repl : String) : String :=
  if pat.data = [] then s
  else String.mk (replaceGo pat.data repl.data s.data 0)

/-- Join strings with a separator (`sep.join(l)` / `String.intercalate`). -/
def strIntercalate (sep : String) (l : List String) : String :=
  String.mk (List.intercalate sep.data (l.map String.data))

/-- Python `int(s)` for a string of digits; `none` when `s.isdigit()` is
false. -/
def pyDigitsToNat (s : String) : Option Nat :=
  if s.data ≠ [] ∧ s.data.all (fun c => c.isDigit) then
    some (s.data.foldl (fun n c => n * 10 + (c.toNat - 48)) 0)
  else none

/-! ## A model of `shlex.split` (POSIX mode, `whitespace_split=True`)

`shlex.split` raises `ValueError` on unbalanced quoting; the model returns
`Except.error` with the corresponding message. -/

/-- Whitespace recognised by `shlex` (its `whitespace` attribute). -/
def shlexWs (c : Char) : Bool :=
  c = ' ' ∨ c = '\t' ∨ c = '\r' ∨ c = '\n'

/-- Lexer mode of the `shlex` state machine: outside quotes, inside single
quotes, or inside double quotes. -/
inductive LexMode where
  | normal : LexMode
  | single : LexMode
  | double : LexMode
deriving DecidableEq

/-- Core loop of the `shlex.split` model.  `tok` is the token being built
(`none` when no token is in progress; `some ""` after an empty quoted
string, which still emits a token). -/
def shlexGo : LexMode → Option String → List String → List Char →
    Except String (List String)
  | .normal, tok, acc, [] => .ok (acc ++ tok.toList)
  | .normal, _, _, '\\' :: [] => .error "No escaped character"
  | .normal, tok, acc, '\\' :: d :: cs =>
      shlexGo .normal (some ((tok.getD "").push d)) acc cs
  | .normal, tok, acc, '\'' :: cs => shlexGo .single (some (tok.getD "")) acc cs
  | .normal, tok, acc, '"' :: cs => shlexGo .double (some (tok.getD "")) acc cs
  | .normal, tok, acc, c :: cs =>
      if shlexWs c then shlexGo .normal none (acc ++ tok.toList) cs
      else shlexGo .normal (some ((tok.getD "").push c)) acc cs
  | .single, _, _, [] => .error "No closing quotation"
  | .single, tok, acc, '\'' :: cs => shlexGo .normal tok acc cs
  | .single, tok, acc, c :: cs => shlexGo .single (some ((tok.getD "").push c)) acc cs
  | .double, _, _, [] => .error "No closing quotation"
  | .double, tok, acc, '"' :: cs => shlexGo .normal tok acc cs
  | .double, _, _, '\\' :: [] => .error "No escaped character"
  | .double, tok, acc, '\\' :: d :: cs =>
      if d = '"' ∨ d = '\\' then shlexGo .double (some ((tok.getD "").push d)) acc cs
      else shlexGo .double (some (((tok.getD "").push '\\').push d)) acc cs
  | .double, tok, acc, c :: cs => shlexGo .double (some ((tok.getD "").push c)) acc cs

/-- Model of `shlex.split(s)`: token list, or the `ValueError` message. -/
def shlexSplit (s : String) : Except String (List String) :=
  shlexGo .normal none [] s.data

/-! ## POSIX `os.path` primitives used by the source -/

/-- `os.path.isabs` on POSIX. -/
def isabs (p : String) : Bool := pyStartsWith p "/"

/-- `os.path.join` on POSIX, two arguments. -/
def joinPath (a b : String) : String :=
  if isabs b then b
  else if a = "" ∨ pyEndsWith a "/" then a ++ b
  else a ++ "/" ++ b

/-- Python `str.rstrip('/')`. -/
def rstripSlash (s : String) : String :=
  String.mk ((s.data.reverse.dropWhile (fun c => c = '/')).reverse)

/-- `os.path.normpath` on POSIX. -/
def normpath (p : String) : String :=
  if p = "" then "." else
  let initialSlashes : Nat :=
    if pyStartsWith p "/" then
      (if pyStartsWith p "//" ∧ ¬ pyStartsWith p "///" then 2 else 1)
    else 0
  let comps := (strSplitOn p "/").filter (fun c => c ≠ "" ∧ c ≠ ".")
  let newComps := comps.foldl (fun acc comp =>
      if comp ≠ ".." ∨ (initialSlashes = 0 ∧ acc = []) ∨
          acc.getLast? = some ".." then
        acc ++ [comp]
      else if acc ≠ [] then acc.dropLast
      else acc) []
  let res := String.mk (List.replicate initialSlashes '/') ++
    strIntercalate "/" newComps
  if res = "" then "." else res

/-- Length of the common prefix of two component lists
(`os.path.commonprefix` on pre-split lists). -/
def commonLen : List String → List String → Nat
  | a :: as, b :: bs => if a = b then commonLen as bs + 1 else 0
  | _, _ => 0

/-- `os.path.relpath` on POSIX, assuming both arguments are absolute paths
(which is how the source calls it). -/
def relpathPosix (path start : String) : String :=
  let pl := (strSplitOn (normpath path) "/").filter (fun c => c ≠ "")
  let sl := (strSplitOn (normpath start) "/").filter (fun c => c ≠ "")
  let i := commonLen sl pl
  let rel := List.replicate (sl.length - i) ".." ++ pl.drop i
  let j := strIntercalate "/" rel
  if j = "" then "." else j

/-! ## Data model (`lib/shell/state.py`, `lib/shell/executor.py`) -/

/-- Result from command execution (`CommandResult` in `executor.py`). -/
structure CommandResult where
  returncode : Int
  stdout : String
  stderr : String
  command : String
deriving DecidableEq

/-- Shell session state (`ShellState` in `state.py`). -/
structure ShellState where
  cwd : String
  env : List (String × String)
  mode : String
  last_exit_code : Int
  history : List String
  aliases : List (String × String)
  last_command : String
  last_stdout : String
  last_stderr : String
  last_returncode : Int
  pending_commands : List String
  prompt_prefill : String
deriving DecidableEq

/-- An exception escaping the executor: `SystemExit` raised by the `exit`
built-in, or `ValueError` raised by `shlex.split` on malformed quoting. -/
inductive Signal where
  | systemExit (code : Nat) : Signal
  | valueError (msg : String) : Signal
deriving DecidableEq

/-- Outcome of the external process primitive (`subprocess.run`): a completed
process, a `TimeoutExpired`, or any other spawn/transport failure. -/
inductive ExternalOutcome where
  | success (returncode : Int) (stdout stderr : String) : ExternalOutcome
  | timeout : ExternalOutcome
  | failure (msg : String) : ExternalOutcome

/-- External collaborators of the executor and triage loop: the filesystem
predicates, the process primitive, and the data `os.path.expanduser` reads. -/
structure Env where
  isDir : String → Bool
  isFile : String → Bool
  run : String → String → List (String × String) → ExternalOutcome
  home : String
  lookupUser : String → Option String

/-- `os.path.expanduser` on POSIX.  `~` expands to the home directory,
`~user` through the user database (`none` = unknown user, path returned
unchanged, as Python does on `KeyError`). -/
def expanduser (E : Env) (path : String) : String :=
  match path.data with
  | '~' :: afterTilde =>
      let userPart := afterTilde.takeWhile (fun c => c ≠ '/')
      let restPart := afterTilde.drop userPart.length
      let userhome :=
        if userPart = [] then some E.home
        else E.lookupUser (String.mk userPart)
      match userhome with
      | none => path
      | some h =>
          let r := rstripSlash h ++ String.mk restPart
          if r = "" then "/" else r
  | _ => path

/-! ## Command executor (`lib/shell/executor.py`) -/

/-- Bare shell-interpreter names rejected by the executor. -/
def interpreters : List String :=
  ["cmd", "bash", "sh", "powershell", "pwsh", "zsh"]

/-- Names of the registered built-in commands (`_register_builtins`). -/
def builtinNames : List String := ["cd", "export", "pwd", "exit", "mode"]

/-- `_record_result`: persist the result's fields on the shell state. -/
def recordResult (st : ShellState) (r : CommandResult) : ShellState :=
  { st with
    last_command := r.command
    last_stdout := r.stdout
    last_stderr := r.stderr
    last_returncode := r.returncode }

/-- `_builtin_cd`: resolve the target through `expanduser`, `join` with the
current directory, and `normpath`; change directory only if the result is an
existing directory. -/
def builtin_cd (E : Env) (st : ShellState) (args : List String) :
    CommandResult × ShellState :=
  let rawTarget := match args with | a :: _ => a | [] => expanduser E "~"
  let t1 := expanduser E rawTarget
  let t2 := if isabs t1 then t1 else joinPath st.cwd t1
  let target := normpath t2
  let display := match args with | a :: _ => a | [] => "~"
  if E.isDir target then
    (⟨0, "", "", "cd " ++ display⟩, { st with cwd := target })
  else
    (⟨1, "", "cd: " ++ target ++ ": No such directory\n", "cd " ++ display⟩, st)

/-- The directory `_builtin_cd` resolves a path argument to: `expanduser`,
then `join` against the working directory when relative, then `normpath`. -/
def cdTarget (E : Env) (cwd arg : String) : String :=
  normpath (if isabs (expanduser E arg) then expanduser E arg
            else joinPath cwd (expanduser E arg))

/-- `_builtin_pwd`. -/
def builtin_pwd (st : ShellState) : CommandResult × ShellState :=
  (⟨0, st.cwd ++ "\n", "", "pwd"⟩, st)

/-- Update a key in the session environment mapping (Python dict update:
overwrite in place, else append). -/
def envSet (e : List (String × String)) (k v : String) : List (String × String) :=
  if e.any (fun p => p.1 = k) then
    e.map (fun p => if p.1 = k then (k, v) else p)
  else e ++ [(k, v)]

/-- `_builtin_export`.  The mutation of the ambient `os.environ` is an
external side effect outside the session state and is not modelled. -/
def builtin_export (st : ShellState) (args : List String) :
    CommandResult × ShellState :=
  if args = [] then
    let output := strIntercalate "\n"
      (st.env.map (fun p => p.1 ++ "=" ++ p.2))
    (⟨0, output ++ "\n", "", "export"⟩, st)
  else
    let st2 := args.foldl (fun s arg =>
        if strContains arg "=" then
          let k := arg.data.takeWhile (fun c => c ≠ '=')
          let v := String.mk (arg.data.drop (k.length + 1))
          { s with env := envSet s.env (String.mk k) v }
        else s) st
    (⟨0, "", "", "export " ++ strIntercalate " " args⟩, st2)

/-- `_builtin_mode`. -/
def builtin_mode (st : ShellState) (args : List String) :
    CommandResult × ShellState :=
  match args with
  | [] =>
      (⟨0, "Current mode: " ++ st.mode ++ "\nAvailable: shell, nl, ai\n",
        "", "mode"⟩, st)
  | a :: _ =>
      let m := pyLower a
      if m = "shell" ∨ m = "nl" ∨ m = "ai" then
        (⟨0, "Switched to " ++ m ++ " mode\n", "", "mode " ++ m⟩,
         { st with mode := m })
      else
        (⟨1, "", "Invalid mode: " ++ m ++ ". Use: shell, nl, or ai\n",
          "mode " ++ m⟩, st)

/-- Exit code of the `exit` built-in:
`int(args[0]) if args and args[0].isdigit() else 0`. -/
def exitCodeOf (args : List String) : Nat :=
  match args with
  | a :: _ => match pyDigitsToNat a with | some n => n | none => 0
  | [] => 0

/-- Wrap a built-in's result: return it and record it on the state. -/
def withRecord (p : CommandResult × ShellState) :
    Except Signal CommandResult × ShellState :=
  (.ok p.1, recordResult p.2 p.1)

/-- External execution path of `execute`: `subprocess.run` with a 300-second
timeout; `TimeoutExpired` becomes return code 124 and any other exception
becomes return code 1, both with a message in stderr. -/
def runExternal (E : Env) (st : ShellState) (command : String) :
    Except Signal CommandResult × ShellState :=
  let r : CommandResult :=
    match E.run command st.cwd st.env with
    | .success code out err => ⟨code, out, err, command⟩
    | .timeout => ⟨124, "", "Command timed out after 5 minutes", command⟩
    | .failure msg => ⟨1, "", "Execution error: " ++ msg, command⟩
  (.ok r, recordResult st r)

/-- `ShellExecutor.execute`.  The `Except.error` outcomes are the two
exceptions that escape the Python method: `SystemExit` from the `exit`
built-in and `ValueError` from the `shlex.split` call (which sits outside
the `try` block). -/
def executeCmd (E : Env) (st : ShellState) (rawCommand : String) :
    Except Signal CommandResult × ShellState :=
  let command := pyStrip rawCommand
  if command = "" ∨ pyStartsWith command "#" then (.ok ⟨0, "", "", command⟩, st)
  else if interpreters.contains (pyLower command) then
    (.ok ⟨0, "", "", command⟩, st)
  else
    match shlexSplit command with
    | .error msg => (.error (.valueError msg), st)
    | .ok parts =>
        match parts with
        | [] => runExternal E st command
        | t :: args =>
            if t = "cd" then withRecord (builtin_cd E st args)
            else if t = "export" then withRecord (builtin_export st args)
            else if t = "pwd" then withRecord (builtin_pwd st)
            else if t = "exit" then (.error (.systemExit (exitCodeOf args)), st)
            else if t = "mode" then withRecord (builtin_mode st args)
            else runExternal E st command

/-! ## Input classifier (`lib/shell/parser.py`) -/

/-- Input classification (`InputType` in `parser.py`). -/
inductive InputType where
  | SHELL_COMMAND : InputType
  | NATURAL_LANGUAGE : InputType
  | AI_REQUEST : InputType
  | COMMENT : InputType
  | EMPTY : InputType
deriving DecidableEq

/-- The fixed known-command set (`InputParser.SHELL_COMMANDS`); on the
Windows platform (`os.name == 'nt'`) five extra built-ins are added. -/
def shellCommandsSet (isWindows : Bool) : List String :=
  ["ls", "cd", "pwd", "cat", "echo", "grep", "find", "git",
   "python", "node", "npm", "pip", "docker", "kubectl",
   "mkdir", "rm", "cp", "mv", "touch", "chmod", "chown",
   "ps", "kill", "top", "df", "du", "tar", "gzip", "curl", "wget",
   "export", "mode"] ++
  (if isWindows then ["dir", "type", "cls", "copy", "del"] else [])

/-- The shell operator substrings checked by `_is_shell_command`. -/
def shellOperators : List String := ["|", ">", "<", "&&", "||", ";", ">>"]

/-- First whitespace-delimited token (`text.split()[0] if text.split() else ''`). -/
def firstWord (text : String) : String :=
  match pySplitWs text with
  | w :: _ => w
  | [] => ""

/-- `InputParser._is_shell_command`. -/
def isShellCommandText (isWindows : Bool) (text : String) : Bool :=
  let fw := firstWord text
  if (shellCommandsSet isWindows).contains fw then true
  else if shellOperators.any (fun op => strContains text op) then true
  else if pyStartsWith fw "./" ∨ pyStartsWith fw "/" then true
  else if strContains fw "=" ∧ ¬ strContains fw " " then true
  else false

/-- `InputParser.classify`. -/
def classify (isWindows : Bool) (userInput : String) : InputType :=
  let stripped := pyStrip userInput
  if stripped = "" then .EMPTY
  else if pyStartsWith stripped "#" then .COMMENT
  else if pyStartsWith (pyLower stripped) "ai:" then .AI_REQUEST
  else if isShellCommandText isWindows stripped then .SHELL_COMMAND
  else .NATURAL_LANGUAGE

/-! ## Session orchestrator (`webwright/main.py`) -/

/-- The fixed safe-prefix set of `_should_autorun`. -/
def safe_prefixes : List String :=
  ["ls", "pwd", "cd", "whoami", "date", "cat", "echo",
   "git status", "git diff", "head", "tail", "dir"]

/-- The fixed risky-keyword set of `_should_autorun`. -/
def risky_keywords : List String :=
  ["rm", "mv", "chmod", "chown", "docker", "kubectl",
   "git push", "git commit", "pip install", "npm install",
   "apt", "brew", "systemctl", "shutdown", "reboot"]

/-- `WebrightShell._should_autorun`: safe-prefix test first, then the
risky-keyword test, then the local-`.py`-script allowance (where a
`shlex` tokenization error falls back to naive whitespace splitting),
else deny. -/
def shouldAutorun (E : Env) (st : ShellState) (command : String) : Bool :=
  let cl := pyLower command
  if safe_prefixes.any (fun p => pyStartsWith cl p) then true
  else if risky_keywords.any (fun k => strContains cl k) then false
  else if pyStartsWith cl "python " ∨ pyStartsWith cl "py " then
    let parts := match shlexSplit command with
      | .ok ps => ps
      | .error _ => pySplitWs command
    match parts with
    | _ :: script :: _ =>
        let scriptPath := if isabs script then script else joinPath st.cwd script
        E.isFile scriptPath ∧ pyEndsWith scriptPath ".py"
    | _ => false
  else false

/-- `list.remove(x)`: delete the first occurrence of `x`. -/
def removeFirst : List String → String → List String
  | [], _ => []
  | x :: xs, y => if x = y then xs else x :: removeFirst xs y

/-- Outcome of one run of an orchestrator loop over pending commands:
the exception that escaped (if any), the final session state, and the
commands handed to the executor in order, paired with their results. -/
structure LoopOut where
  signal : Option Signal
  state : ShellState
  executed : List (String × CommandResult)
deriving DecidableEq

/-- Body of `_execute_translated_commands`: iterate over a snapshot of
`pending_commands`; auto-run and dequeue allowed commands, and stop at the
first denied command, staging it in `prompt_prefill` when no prefill is
pending.  An exception raised by the executor propagates. -/
def execTransGo (E : Env) : List String → ShellState →
    List (String × CommandResult) → LoopOut
  | [], st, acc => ⟨none, st, acc⟩
  | c :: rest, st, acc =>
      if shouldAutorun E st c then
        match executeCmd E st c with
        | (.ok r, st1) =>
            let st2 := { st1 with
              last_exit_code := r.returncode
              pending_commands := removeFirst st1.pending_commands c }
            execTransGo E rest st2 (acc ++ [(c, r)])
        | (.error sig, st1) => ⟨some sig, st1, acc⟩
      else
        if st.prompt_prefill = "" then ⟨none, { st with prompt_prefill := c }, acc⟩
        else ⟨none, st, acc⟩

/-- `WebrightShell._execute_translated_commands`. -/
def executeTranslatedCommands (E : Env) (st : ShellState) : LoopOut :=
  execTransGo E st.pending_commands st []

/-- Body of `_run_pending_commands`: execute every command of a snapshot of
the queue unconditionally, dequeueing each; an executor exception
propagates. -/
def runPendingGo (E : Env) : List String → ShellState →
    List (String × CommandResult) → LoopOut
  | [], st, acc => ⟨none, st, acc⟩
  | c :: rest, st, acc =>
      match executeCmd E st c with
      | (.ok r, st1) =>
          let st2 := { st1 with
            last_exit_code := r.returncode
            pending_commands := removeFirst st1.pending_commands c }
          runPendingGo E rest st2 (acc ++ [(c, r)])
      | (.error sig, st1) => ⟨some sig, st1, acc⟩

/-- `WebrightShell._run_pending_commands`: nothing to do on an empty queue;
otherwise clear the prefill and run the whole queue. -/
def runPendingCommands (E : Env) (st : ShellState) : LoopOut :=
  if st.pending_commands = [] then ⟨none, st, []⟩
  else runPendingGo E st.pending_commands { st with prompt_prefill := "" } []

/-- The rerun shortcut phrase set of `_handle_shortcut`. -/
def rerunPhrases : List String :=
  ["run it", "run that", "execute it", "do it", "go ahead",
   "please run it", "run the command", "run those"]

/-- `WebrightShell._handle_shortcut`: on a shortcut phrase (trimmed,
lowercased, exact match) run the whole pending queue; `none` means the
input was not a shortcut. -/
def handleShortcut (E : Env) (st : ShellState) (nlRequest : String) :
    Option LoopOut :=
  if rerunPhrases.contains (pyLower (pyStrip nlRequest)) then
    some (runPendingCommands E st)
  else none

/-! ## Translator output post-processing (`lib/shell/translator.py`) -/

/-- Test used by `_clean_output`'s loop:
`part.strip().startswith('bash') or part.strip().startswith('sh')`. -/
def stripStartsShell (p : String) : Bool :=
  pyStartsWith (pyStrip p) "bash" ∨ pyStartsWith (pyStrip p) "sh"

/-- Transformation applied to the selected part:
`part.replace('bash', '').replace('sh', '').strip()`. -/
def shellPartClean (p : String) : String :=
  pyStrip (pyReplace (pyReplace p "bash" "") "sh" "")

/-- The `for ... break / else` loop of `_clean_output` over the parts of the
reply split on triple backticks. -/
def cleanLoop : List String → Option String
  | [] => none
  | p :: rest => if stripStartsShell p then some (shellPartClean p) else cleanLoop rest

/-- `NLTranslator._clean_output`. -/
def clean_output (text : String) : String :=
  pyStrip
    (if strContains text "```" then
      match cleanLoop (strSplitOn text "```") with
      | some r => r
      | none =>
          match strSplitOn text "```" with
          | _ :: p1 :: _ => p1
          | _ => text
    else text)

/-- Modelled from the spec's amended wording, for comparison with
`clean_output`: take the first segment of the reply split on triple
backticks whose stripped text starts with `bash` or `sh`, delete every
occurrence of the substrings `bash` and `sh` from it and trim; else, if the
reply contains a fence, the first fenced segment (language tag included)
trimmed; else the raw reply trimmed. -/
def cleanOutputSpec (text : String) : String :=
  let parts := strSplitOn text "```"
  if strContains text "```" then
    match parts.find? stripStartsShell with
    | some p => pyStrip (shellPartClean p)
    | none => pyStrip (match parts with | _ :: p1 :: _ => p1 | _ => text)
  else pyStrip text

/-! ## Input buffer / context extractor (`lib/shell/input_buffer.py`) -/

/-- External collaborators of the input buffer: stdin, the glob resolver,
the filesystem, the file reader and the clipboard. -/
structure BufEnv where
  stdinIsTTY : Bool
  stdinContent : String
  glob : String → List String
  isFile : String → Bool
  readFile : String → Except String String
  clipboard : String

/-- Result of `InputBuffer.process_input`. -/
structure BufferResult where
  command : String
  context : List String
  files : List String
deriving DecidableEq

/-- Scanner for the regex `@([^\s]+)`: left-to-right, non-overlapping.
The second argument holds the reversed characters of a reference in
progress (`none` when not inside one). -/
def refsGo : List Char → Option (List Char) → List String
  | [], none => []
  | [], some t => if t = [] then [] else [String.mk t.reverse]
  | c :: cs, none => if c = '@' then refsGo cs (some []) else refsGo cs none
  | c :: cs, some t =>
      if pyIsSpace c then
        (if t = [] then refsGo cs none else String.mk t.reverse :: refsGo cs none)
      else refsGo cs (some (c :: t))

/-- `re.findall(r'@([^\s]+)', text)`. -/
def findFileRefs (text : String) : List String := refsGo text.data none

/-- `InputBuffer._read_file`: resolve against the session cwd, report a
missing file or a read error as an inline `# Error` string, and wrap
content with a `# File:` header; never raises. -/
def readFileB (B : BufEnv) (st : ShellState) (path : String) : String :=
  let p := if isabs path then path else joinPath st.cwd path
  if ¬ B.isFile p then "# Error: File not found: " ++ p ++ "\n"
  else
    match B.readFile p with
    | .ok content => "# File: " ++ relpathPosix p st.cwd ++ "\n" ++ content ++ "\n"
    | .error e => "# Error reading " ++ p ++ ": " ++ e ++ "\n"

/-- `InputBuffer.process_input`. -/
def processInput (B : BufEnv) (st : ShellState) (text : String) : BufferResult :=
  let ctx0 : List String :=
    if ¬ B.stdinIsTTY ∧ B.stdinContent ≠ "" then
      ["# Stdin:\n" ++ B.stdinContent]
    else []
  let refs := findFileRefs text
  let step := fun (acc : List String × List String) (f : String) =>
    let content := readFileB B st f
    if content ≠ "" then (acc.1 ++ [content], acc.2 ++ [f]) else acc
  let pair := refs.foldl (fun acc ref =>
      if strContains ref "*" then (B.glob ref).foldl step acc
      else step acc ref) (ctx0, ([] : List String))
  let ctx2 :=
    if strContains text "{clipboard}" ∨ strContains text "{clip}" then
      (if B.clipboard ≠ "" then pair.1 ++ ["# Clipboard:\n" ++ B.clipboard]
       else pair.1)
    else pair.1
  let cleaned := refs.foldl (fun s ref => pyReplace s ("@" ++ ref) "") text
  let cleaned := pyReplace (pyReplace cleaned "{clipboard}" "") "{clip}" ""
  { command := pyStrip cleaned, context := ctx2, files := pair.2 }

/-! ## Concrete fixtures used by witnesses and counterexamples -/

/-- A concrete external environment: no directories or files exist, every
external command times out, home is `/root`. -/
def env0 : Env :=
  { isDir := fun _ => false
    isFile := fun _ => false
    run := fun _ _ _ => .timeout
    home := "/root"
    lookupUser := fun _ => none }

/-- A concrete quiescent session state. -/
def st0 : ShellState :=
  { cwd := "/w", env := [], mode := "nl", last_exit_code := 0, history := [],
    aliases := [], last_command := "", last_stdout := "", last_stderr := "",
    last_returncode := 0, pending_commands := [], prompt_prefill := "" }

/-- A concrete external environment in which every spawn fails. -/
def envFail : Env :=
  { env0 with run := fun _ _ _ => .failure "boom" }

/-- A concrete environment in which exactly `/home/user` is a directory. -/
def env5 : Env := { env0 with isDir := fun p => p = "/home/user" }

/-- A session state sitting in `/home/user`. -/
def st5 : ShellState := { st0 with cwd := "/home/user" }

/-- The triage fixture of the spec: a safe listing followed by a risky
removal. -/
def stTriage : ShellState :=
  { st0 with pending_commands := ["ls -la", "rm -rf /tmp/x"] }

/-- The rerun-shortcut fixture of the spec: two risky git commands queued. -/
def stGo : ShellState :=
  { st0 with pending_commands := ["git commit -m x", "git push"] }

/-- A queue whose first command is the `exit` built-in. -/
def stEx : ShellState :=
  { st0 with pending_commands := ["exit", "ls"] }

/-- A queue whose only command has an unbalanced quote but a safe prefix. -/
def stC4 : ShellState :=
  { st0 with pending_commands := ["cd \""] }

/-- A queue holding a single risky command. -/
def stW : ShellState :=
  { st0 with pending_commands := ["rm -rf /"] }

/-- A concrete input-buffer environment: interactive stdin, empty
filesystem, unreadable files, empty clipboard. -/
def buf0 : BufEnv :=
  { stdinIsTTY := true, stdinContent := "", glob := fun _ => [],
    isFile := fun _ => false, readFile := fun _ => .error "unreadable",
    clipboard := "" }

/-! ## Helper lemmas -/

/-- Removing the head element by value leaves the tail. -/
theorem removeFirst_cons_self (c : String) (l : List String) :
    removeFirst (c :: l) c = l := by
  simp [removeFirst]

/-- A state-valued fold that preserves the queue fields preserves them
overall. -/
theorem foldl_preserves_queue {α : Type} (f : ShellState → α → ShellState)
    (h : ∀ s a, (f s a).pending_commands = s.pending_commands ∧
      (f s a).prompt_prefill = s.prompt_prefill) :
    ∀ (l : List α) (s : ShellState),
      (l.foldl f s).pending_commands = s.pending_commands ∧
      (l.foldl f s).prompt_prefill = s.prompt_prefill
  | [], _ => ⟨rfl, rfl⟩
  | a :: l, s => by
      have h1 := foldl_preserves_queue f h l (f s a)
      have h2 := h s a
      simp only [List.foldl_cons]
      exact ⟨h1.1.trans h2.1, h1.2.trans h2.2⟩

/-- The executor never touches `pending_commands`: every built-in and the
external path only change `cwd`, `env`, `mode` and the `last_*` snapshot
fields. -/
theorem executeCmd_pending_eq (E : Env) (st : ShellState) (c : String) :
    (executeCmd E st c).2.pending_commands = st.pending_commands := by
  simp only [executeCmd, withRecord, runExternal, recordResult, builtin_cd,
    builtin_pwd, builtin_mode, builtin_export]
  repeat' split
  all_goals first
    | rfl
    | exact (foldl_preserves_queue _
        (fun s a => by split <;> exact ⟨rfl, rfl⟩) _ _).1

/-- The executor never touches `prompt_prefill`. -/
theorem executeCmd_prefill_eq (E : Env) (st : ShellState) (c : String) :
    (executeCmd E st c).2.prompt_prefill = st.prompt_prefill := by
  simp only [executeCmd, withRecord, runExternal, recordResult, builtin_cd,
    builtin_pwd, builtin_mode, builtin_export]
  repeat' split
  all_goals first
    | rfl
    | exact (foldl_preserves_queue _
        (fun s a => by split <;> exact ⟨rfl, rfl⟩) _ _).2

/-- The `for/break/else` search of `_clean_output` returns the cleaned text
of the first part accepted by the `bash`/`sh` test. -/
theorem cleanLoop_eq_find (ps : List String) :
    cleanLoop ps = (ps.find? stripStartsShell).map shellPartClean := by
  induction ps with
  | nil => rfl
  | cons p rest ih =>
      by_cases h : stripStartsShell p = true
      · simp [cleanLoop, h, List.find?]
      · simp only [Bool.not_eq_true] at h
        simp [cleanLoop, h, List.find?, ih]

/-! ## Claims -/

/-- C10: for every command whose lowercase form starts with one of the safe
prefixes, `_should_autorun` returns true — the safe-prefix test is checked
before the risky-keyword test and is a plain `startswith`, not a
whole-token match. -/
theorem autorun_safe_prefix_wins (E : Env) (st : ShellState) (command : String)
    (h : safe_prefixes.any (fun p => pyStartsWith (pyLower command) p) = true) :
    shouldAutorun E st command = true := by
  unfold shouldAutorun
  simp only [h, if_true]

/-- Witness for C10: `"cd /tmp && rm -rf x"` auto-runs despite the risky
`rm` keyword, and `"catastrophe now"` auto-runs because it starts with the
characters `cat`. -/
theorem autorun_safe_prefix_wins_witness :
    shouldAutorun env0 st0 "cd /tmp && rm -rf x" = true ∧
    shouldAutorun env0 st0 "catastrophe now" = true :=
  ⟨autorun_safe_prefix_wins env0 st0 "cd /tmp && rm -rf x" (by decide),
   autorun_safe_prefix_wins env0 st0 "catastrophe now" (by decide)⟩

/-- Counterexample to C6 as stated: the text `"# ls | wc"` contains the
operator substring `|` but `classify` returns `COMMENT`, because the
comment test precedes the shell-command test. -/
theorem classifier_comment_beats_operator :
    strContains "# ls | wc" "|" = true ∧
    classify false "# ls | wc" = InputType.COMMENT ∧
    InputType.COMMENT ≠ InputType.SHELL_COMMAND :=
  ⟨rfl, rfl, by decide⟩

/-- C6 (amended): for all text that is non-blank after trimming, does not
start with `#`, and does not start case-insensitively with `ai:`, whose
first whitespace-delimited token is in the known-command set or whose
trimmed text contains one of the shell operator substrings, `classify`
returns `SHELL_COMMAND` (in particular regardless of the case of characters
after the first token). -/
theorem classifier_known_command_or_operator (isWindows : Bool) (text : String)
    (h1 : pyStrip text ≠ "")
    (h2 : pyStartsWith (pyStrip text) "#" = false)
    (h3 : pyStartsWith (pyLower (pyStrip text)) "ai:" = false)
    (h4 : (shellCommandsSet isWindows).contains (firstWord (pyStrip text)) = true ∨
          shellOperators.any (fun op => strContains (pyStrip text) op) = true) :
    classify isWindows text = InputType.SHELL_COMMAND := by
  have hsc : isShellCommandText isWindows (pyStrip text) = true := by
    unfold isShellCommandText
    rcases h4 with h | h
    · simp only [h, if_true]
    · by_cases hc :
        (shellCommandsSet isWindows).contains (firstWord (pyStrip text)) = true
      · simp only [hc, if_true]
      · simp only [Bool.not_eq_true] at hc
        simp only [hc, h, Bool.false_eq_true, if_false, if_true]
  unfold classify
  simp only [h1, h2, h3, hsc, Bool.false_eq_true, if_false, if_true]

/-- Witness for C6: `"git STATUS && Rm -RF /x"` has first token `git` in
the known-command set (and contains `&&`), and is classified as a shell
command despite the mixed case after the first token. -/
theorem classifier_known_command_or_operator_witness :
    classify false "git STATUS && Rm -RF /x" = InputType.SHELL_COMMAND :=
  classifier_known_command_or_operator false "git STATUS && Rm -RF /x"
    (by decide) (by decide) (by decide) (Or.inl (by decide))

/-- Counterexample to C8 as stated: for the reply
```` ```sh\necho fish\n``` ```` the extracted command is `"echo fi"`, not the
block content `"echo fish"`: `replace` deletes the substring `sh` from
`fish` as well as the language tag. -/
theorem clean_output_mangles_shell_content :
    clean_output "```sh\necho fish\n```" = "echo fi" ∧
    ("echo fi" : String) ≠ "echo fish" :=
  ⟨rfl, by decide⟩

/-- C8 (amended): `_clean_output` equals the following description: if the
reply contains a triple-backtick fence, the first `split('```')` segment
whose stripped text starts with `bash` or `sh` — whether or not it is a
fenced block — is returned with every occurrence of the substrings `bash`
and `sh` deleted and whitespace trimmed; if no segment qualifies, the first
fenced segment (language tag included) is returned trimmed; a reply with no
fence is returned trimmed. -/
theorem clean_output_refines_spec (text : String) :
    clean_output text = cleanOutputSpec text := by
  unfold clean_output cleanOutputSpec
  by_cases h : strContains text "```" = true
  · simp only [h, if_true, cleanLoop_eq_find]
    cases hf : (strSplitOn text "```").find? stripStartsShell with
    | none => simp only [Option.map_none']
    | some p => rfl
  · simp only [Bool.not_eq_true] at h
    simp only [h, Bool.false_eq_true, if_false]

/-- Witness for C8: the two descriptions agree on a concrete tagged reply. -/
theorem clean_output_refines_spec_witness :
    clean_output "```bash\nls -la\n```" = cleanOutputSpec "```bash\nls -la\n```" :=
  clean_output_refines_spec "```bash\nls -la\n```"

/-! ## Further helper lemmas for the executor and orchestrator claims -/

/-- Appending to a non-empty string yields a non-empty string. -/
theorem str_append_ne_empty (s t : String) (h : s ≠ "") : s ++ t ≠ "" := by
  intro he
  apply h
  have hd : (s ++ t).data = ([] : List Char) := by rw [he]
  rw [String.data_append] at hd
  rcases List.append_eq_nil.mp hd with ⟨h1, _⟩
  cases s
  simp_all

/-- Dispatch lemma: a non-blank, non-comment, non-interpreter command whose
first `shlex` token is not a built-in reaches the external execution path. -/
theorem executeCmd_external (E : Env) (st : ShellState) (raw : String)
    (parts : List String)
    (hne : pyStrip raw ≠ "")
    (hhash : pyStartsWith (pyStrip raw) "#" = false)
    (hint : interpreters.contains (pyLower (pyStrip raw)) = false)
    (hparse : shlexSplit (pyStrip raw) = .ok parts)
    (hnb : ∀ t, parts.head? = some t → builtinNames.contains t = false) :
    executeCmd E st raw = runExternal E st (pyStrip raw) := by
  simp only [executeCmd]
  rw [if_neg (by simp [hne, hhash]), if_neg (by rw [hint]; decide), hparse]
  cases parts with
  | nil => rfl
  | cons t args =>
      have h := hnb t rfl
      have h1 : ¬ t = "cd" := fun hh => by subst hh; exact absurd h (by decide)
      have h2 : ¬ t = "export" := fun hh => by subst hh; exact absurd h (by decide)
      have h3 : ¬ t = "pwd" := fun hh => by subst hh; exact absurd h (by decide)
      have h4 : ¬ t = "exit" := fun hh => by subst hh; exact absurd h (by decide)
      have h5 : ¬ t = "mode" := fun hh => by subst hh; exact absurd h (by decide)
      simp only [if_neg h1, if_neg h2, if_neg h3, if_neg h4, if_neg h5]

/-- Dispatch lemma: a command whose first `shlex` token is `cd` reaches the
`cd` built-in, with the result recorded on the state. -/
theorem executeCmd_cd_dispatch (E : Env) (st : ShellState) (raw : String)
    (args : List String)
    (hne : pyStrip raw ≠ "")
    (hhash : pyStartsWith (pyStrip raw) "#" = false)
    (hint : interpreters.contains (pyLower (pyStrip raw)) = false)
    (hparse : shlexSplit (pyStrip raw) = .ok ("cd" :: args)) :
    executeCmd E st raw = withRecord (builtin_cd E st args) := by
  simp only [executeCmd]
  rw [if_neg (by simp [hne, hhash]), if_neg (by rw [hint]; decide), hparse]
  rfl

/-- Invariant of the triage loop: starting from an empty prefill and a queue
equal to the iterated snapshot, a normally-terminating run either drains the
queue or leaves the staged command's exact text in the prefill with that
command still at the front. -/
theorem execTransGo_inv (E : Env) (snapshot : List String) :
    ∀ (st : ShellState) (acc : List (String × CommandResult)),
      st.pending_commands = snapshot → st.prompt_prefill = "" →
      (execTransGo E snapshot st acc).signal = none →
      ((execTransGo E snapshot st acc).state.pending_commands = [] ∨
       ∃ rest2, (execTransGo E snapshot st acc).state.pending_commands =
         (execTransGo E snapshot st acc).state.prompt_prefill :: rest2) := by
  induction snapshot with
  | nil =>
      intro st acc hp _ _
      left
      simpa [execTransGo] using hp
  | cons c rest ih =>
      intro st acc hp hpre hsig
      by_cases ha : shouldAutorun E st c = true
      · rcases hx : executeCmd E st c with ⟨res, st1⟩
        cases res with
        | ok r =>
            have hpend1 := executeCmd_pending_eq E st c
            have hpre1 := executeCmd_prefill_eq E st c
            rw [hx] at hpend1 hpre1
            have hstep : execTransGo E (c :: rest) st acc =
                execTransGo E rest
                  { st1 with
                    last_exit_code := r.returncode
                    pending_commands := removeFirst st1.pending_commands c }
                  (acc ++ [(c, r)]) := by
              simp only [execTransGo, ha, if_true, hx]
            rw [hstep] at hsig ⊢
            apply ih _ _ ?_ ?_ hsig
            · show removeFirst st1.pending_commands c = rest
              rw [hpend1, hp, removeFirst_cons_self]
            · show st1.prompt_prefill = ""
              rw [hpre1, hpre]
        | error sig =>
            have hstep : execTransGo E (c :: rest) st acc = ⟨some sig, st1, acc⟩ := by
              simp only [execTransGo, ha, if_true, hx]
            rw [hstep] at hsig
            simp at hsig
      · have hstep : execTransGo E (c :: rest) st acc =
            ⟨none, { st with prompt_prefill := c }, acc⟩ := by
          simp only [execTransGo, if_neg ha]
          rw [if_pos hpre]
        rw [hstep]
        right
        exact ⟨rest, by show st.pending_commands = c :: rest; rw [hp]⟩

/-- A normally-terminating run of the rerun loop executes exactly the
snapshot, in order, and empties the queue. -/
theorem runPendingGo_drains (E : Env) (snapshot : List String) :
    ∀ (st : ShellState) (acc : List (String × CommandResult)),
      st.pending_commands = snapshot →
      (runPendingGo E snapshot st acc).signal = none →
      (runPendingGo E snapshot st acc).executed.map Prod.fst =
        acc.map Prod.fst ++ snapshot ∧
      (runPendingGo E snapshot st acc).state.pending_commands = [] := by
  induction snapshot with
  | nil =>
      intro st acc hp _
      exact ⟨by simp [runPendingGo], by simpa [runPendingGo] using hp⟩
  | cons c rest ih =>
      intro st acc hp hsig
      rcases hx : executeCmd E st c with ⟨res, st1⟩
      cases res with
      | ok r =>
          have hpend1 := executeCmd_pending_eq E st c
          rw [hx] at hpend1
          have hstep : runPendingGo E (c :: rest) st acc =
              runPendingGo E rest
                { st1 with
                  last_exit_code := r.returncode
                  pending_commands := removeFirst st1.pending_commands c }
                (acc ++ [(c, r)]) := by
            simp only [runPendingGo, hx]
          rw [hstep] at hsig ⊢
          have hp2 : ({ st1 with
              last_exit_code := r.returncode
              pending_commands := removeFirst st1.pending_commands c } :
                ShellState).pending_commands = rest := by
            show removeFirst st1.pending_commands c = rest
            rw [hpend1, hp, removeFirst_cons_self]
          obtain ⟨hmap, hdrain⟩ := ih _ _ hp2 hsig
          refine ⟨?_, hdrain⟩
          rw [hmap]
          simp
      | error sig =>
          have hstep : runPendingGo E (c :: rest) st acc = ⟨some sig, st1, acc⟩ := by
            simp only [runPendingGo, hx]
          rw [hstep] at hsig
          simp at hsig

/-- The executor never consults the filesystem's `isfile` predicate (that
predicate is only read by the autorun triage). -/
theorem executeCmd_isFile_irrel (d : String → Bool) (f1 f2 : String → Bool)
    (r : String → String → List (String × String) → ExternalOutcome)
    (h : String) (u : String → Option String) (st : ShellState) (c : String) :
    executeCmd ⟨d, f1, r, h, u⟩ st c = executeCmd ⟨d, f2, r, h, u⟩ st c := rfl

/-- The rerun loop never consults the `isfile` predicate. -/
theorem runPendingGo_isFile_irrel (d : String → Bool) (f1 f2 : String → Bool)
    (r : String → String → List (String × String) → ExternalOutcome)
    (h : String) (u : String → Option String) (snapshot : List String) :
    ∀ (st : ShellState) (acc : List (String × CommandResult)),
      runPendingGo ⟨d, f1, r, h, u⟩ snapshot st acc =
      runPendingGo ⟨d, f2, r, h, u⟩ snapshot st acc := by
  induction snapshot with
  | nil => intro st acc; rfl
  | cons c rest ih =>
      intro st acc
      simp only [runPendingGo, executeCmd_isFile_irrel d f1 f2 r h u st c]
      rcases hx : executeCmd ⟨d, f2, r, h, u⟩ st c with ⟨res, st1⟩
      cases res with
      | ok rr => exact ih _ _
      | error sig => rfl

/-- The shortcut handler never consults the `isfile` predicate. -/
theorem handleShortcut_isFile_irrel (d : String → Bool) (f1 f2 : String → Bool)
    (r : String → String → List (String × String) → ExternalOutcome)
    (h : String) (u : String → Option String) (st : ShellState) (input : String) :
    handleShortcut ⟨d, f1, r, h, u⟩ st input =
    handleShortcut ⟨d, f2, r, h, u⟩ st input := by
  unfold handleShortcut runPendingCommands
  split
  · split
    · rfl
    · rw [runPendingGo_isFile_irrel d f1 f2 r h u]
  · rfl

/-- Evaluation of one triage run on the fixture queue, for an arbitrary
result of the external listing command. -/
theorem triage_fixture_eval (E : Env) (r : CommandResult)
    (hexec : executeCmd E stTriage "ls -la" = (.ok r, recordResult stTriage r)) :
    executeTranslatedCommands E stTriage =
      ⟨none,
       { recordResult stTriage r with
         last_exit_code := r.returncode
         pending_commands := ["rm -rf /tmp/x"]
         prompt_prefill := "rm -rf /tmp/x" },
       [("ls -la", r)]⟩ := by
  have hls : shouldAutorun E stTriage "ls -la" = true := rfl
  have hrm : ∀ s : ShellState, shouldAutorun E s "rm -rf /tmp/x" = false := fun _ => rfl
  have h0 : executeTranslatedCommands E stTriage =
      execTransGo E ["ls -la", "rm -rf /tmp/x"] stTriage [] := rfl
  have hpend : stTriage.pending_commands = ["ls -la", "rm -rf /tmp/x"] := rfl
  have hpre : stTriage.prompt_prefill = "" := rfl
  rw [h0]
  simp [execTransGo, hexec, hls, hrm, recordResult, removeFirst, hpend, hpre]

/-! ## Remaining claims -/

/-- C1 (amended): for every command whose trimmed text tokenizes under
`shlex` with a first token other than `exit`, `execute` returns a
structured `CommandResult` and does not raise; in particular any external
execution failure is converted into return code 1 with
`Execution error: <message>` in stderr.  (As the counterexample shows, a
command that `shlex` cannot tokenize — unbalanced quoting — instead raises
the tokenization error past the `execute` boundary.) -/
theorem execute_returns_result_or_tokenization_error (E : Env)
    (st : ShellState) (raw : String) (parts : List String)
    (hparse : shlexSplit (pyStrip raw) = .ok parts)
    (hnotexit : parts.head? ≠ some "exit") :
    (∃ r st2, executeCmd E st raw = (.ok r, st2)) ∧
    (∀ msg, pyStrip raw ≠ "" → pyStartsWith (pyStrip raw) "#" = false →
      interpreters.contains (pyLower (pyStrip raw)) = false →
      (∀ t, parts.head? = some t → builtinNames.contains t = false) →
      E.run (pyStrip raw) st.cwd st.env = .failure msg →
      executeCmd E st raw =
        (.ok ⟨1, "", "Execution error: " ++ msg, pyStrip raw⟩,
         recordResult st ⟨1, "", "Execution error: " ++ msg, pyStrip raw⟩)) := by
  constructor
  · simp only [executeCmd]
    split
    · exact ⟨_, _, rfl⟩
    split
    · exact ⟨_, _, rfl⟩
    rw [hparse]
    cases parts with
    | nil => exact ⟨_, _, rfl⟩
    | cons t args =>
        have hnx : t ≠ "exit" := by simpa using hnotexit
        by_cases h1 : t = "cd"
        · subst h1; exact ⟨_, _, rfl⟩
        by_cases h2 : t = "export"
        · subst h2; exact ⟨_, _, rfl⟩
        by_cases h3 : t = "pwd"
        · subst h3; exact ⟨_, _, rfl⟩
        by_cases h5 : t = "mode"
        · subst h5; exact ⟨_, _, rfl⟩
        simp only [if_neg h1, if_neg h2, if_neg h3, if_neg hnx, if_neg h5]
        exact ⟨_, _, rfl⟩
  · intro msg hne hhash hint hnb hrun
    rw [executeCmd_external E st raw parts hne hhash hint hparse hnb]
    unfold runExternal
    rw [hrun]

/-- Witness for C1: with a spawning primitive that fails with `boom`,
`execute("echo hi")` returns code 1 and the message in stderr. -/
theorem execute_returns_result_or_tokenization_error_witness :
    executeCmd envFail st0 "echo hi" =
      (.ok ⟨1, "", "Execution error: boom", "echo hi"⟩,
       recordResult st0 ⟨1, "", "Execution error: boom", "echo hi"⟩) :=
  (execute_returns_result_or_tokenization_error envFail st0 "echo hi"
      ["echo", "hi"] rfl (by decide)).2 "boom" (by decide) rfl rfl
    (fun t ht => by
      have h : t = "echo" := by simpa using ht.symm
      subst h; decide) rfl

/-- Counterexample to C1 as stated: `execute` on a command with an
unbalanced quote raises the `shlex` `ValueError` past the execute boundary
instead of returning a code-1 result — the `shlex.split` call sits outside
the `try` block. -/
theorem execute_raises_on_unbalanced_quote :
    executeCmd env0 st0 "echo \"x" =
      (.error (.valueError "No closing quotation"), st0) := rfl

/-- C2: on the queue `["ls -la", "rm -rf /tmp/x"]` with an empty prefill,
one triage run executes `ls -la` (dequeueing it, whatever the external
outcome), then stops with `rm -rf /tmp/x` staged verbatim in the prefill
and still at the front of the queue. -/
theorem triage_runs_safe_then_stages_risky (E : Env) :
    (executeTranslatedCommands E stTriage).signal = none ∧
    (executeTranslatedCommands E stTriage).executed.map Prod.fst = ["ls -la"] ∧
    (executeTranslatedCommands E stTriage).state.pending_commands =
      ["rm -rf /tmp/x"] ∧
    (executeTranslatedCommands E stTriage).state.prompt_prefill =
      "rm -rf /tmp/x" := by
  rcases hr : E.run "ls -la" stTriage.cwd stTriage.env with ⟨c, o, e⟩ | _ | m
  · rw [triage_fixture_eval E ⟨c, o, e, "ls -la"⟩
      (by show runExternal E stTriage "ls -la" = _; unfold runExternal; rw [hr])]
    exact ⟨rfl, rfl, rfl, rfl⟩
  · rw [triage_fixture_eval E ⟨124, "", "Command timed out after 5 minutes", "ls -la"⟩
      (by show runExternal E stTriage "ls -la" = _; unfold runExternal; rw [hr])]
    exact ⟨rfl, rfl, rfl, rfl⟩
  · rw [triage_fixture_eval E ⟨1, "", "Execution error: " ++ m, "ls -la"⟩
      (by show runExternal E stTriage "ls -la" = _; unfold runExternal; rw [hr])]
    exact ⟨rfl, rfl, rfl, rfl⟩

/-- Witness for C2: the triage fixture under the concrete environment. -/
theorem triage_runs_safe_then_stages_risky_witness :
    (executeTranslatedCommands env0 stTriage).signal = none ∧
    (executeTranslatedCommands env0 stTriage).executed.map Prod.fst = ["ls -la"] ∧
    (executeTranslatedCommands env0 stTriage).state.pending_commands =
      ["rm -rf /tmp/x"] ∧
    (executeTranslatedCommands env0 stTriage).state.prompt_prefill =
      "rm -rf /tmp/x" :=
  triage_runs_safe_then_stages_risky env0

/-- C3 (amended): a rerun-shortcut phrase with a non-empty queue runs the
whole queue through `_run_pending_commands`; provided no queued command
raises (no `exit` built-in, no unbalanced quoting), every queued command is
executed in FIFO order, the queue is left empty, and the run is independent
of the `isfile` predicate the autorun triage consults. -/
theorem shortcut_runs_entire_queue (E : Env) (st : ShellState) (input : String)
    (hphrase : rerunPhrases.contains (pyLower (pyStrip input)) = true)
    (hne : st.pending_commands ≠ [])
    (hsig : (runPendingCommands E st).signal = none) :
    handleShortcut E st input = some (runPendingCommands E st) ∧
    (runPendingCommands E st).executed.map Prod.fst = st.pending_commands ∧
    (runPendingCommands E st).state.pending_commands = [] ∧
    (∀ g, handleShortcut { E with isFile := g } st input =
      handleShortcut E st input) := by
  have h0 : runPendingCommands E st =
      runPendingGo E st.pending_commands { st with prompt_prefill := "" } [] := by
    simp [runPendingCommands, hne]
  rw [h0] at hsig
  have hd := runPendingGo_drains E st.pending_commands
    { st with prompt_prefill := "" } [] rfl hsig
  refine ⟨by unfold handleShortcut; rw [if_pos hphrase], ?_, ?_, ?_⟩
  · rw [h0]
    simpa using hd.1
  · rw [h0]
    exact hd.2
  · intro g
    cases E
    exact handleShortcut_isFile_irrel _ _ _ _ _ _ _ _

/-- Witness for C3: with `pendingCommands = ["git commit -m x", "git push"]`,
the input `go ahead` executes both in order and leaves the queue empty,
although the autorun triage would deny both. -/
theorem shortcut_runs_entire_queue_witness :
    handleShortcut env0 stGo "go ahead" = some (runPendingCommands env0 stGo) ∧
    (runPendingCommands env0 stGo).executed.map Prod.fst =
      ["git commit -m x", "git push"] ∧
    (runPendingCommands env0 stGo).state.pending_commands = [] ∧
    shouldAutorun env0 stGo "git commit -m x" = false := by
  have h := shortcut_runs_entire_queue env0 stGo "go ahead"
    (by decide) (by decide) rfl
  exact ⟨h.1, h.2.1, h.2.2.1, rfl⟩

/-- Counterexample to C3 as stated: with `pendingCommands = ["exit", "ls"]`,
the shortcut `go ahead` raises the `exit` built-in's `SystemExit` on the
first command: nothing is dequeued, `ls` is never executed, and the queue
is not left empty. -/
theorem shortcut_aborts_on_exit_signal :
    (handleShortcut env0 stEx "go ahead").map LoopOut.signal =
      some (some (.systemExit 0)) ∧
    ((handleShortcut env0 stEx "go ahead").map LoopOut.state).map
      ShellState.pending_commands = some ["exit", "ls"] ∧
    (handleShortcut env0 stEx "go ahead").map LoopOut.executed = some [] :=
  ⟨rfl, rfl, rfl⟩

/-- C4 (amended): from an empty prefill, a triage run that terminates
without an executor exception either drains the queue or stages exactly the
front element: the prefill then holds the exact text of the command still
at the front of `pendingCommands`.  (As the counterexample shows, an
executor exception inside the loop instead leaves the queue non-empty with
nothing staged.) -/
theorem triage_drains_or_stages_front (E : Env) (st : ShellState)
    (hpre : st.prompt_prefill = "")
    (hsig : (executeTranslatedCommands E st).signal = none) :
    (executeTranslatedCommands E st).state.pending_commands = [] ∨
    ∃ rest2, (executeTranslatedCommands E st).state.pending_commands =
      (executeTranslatedCommands E st).state.prompt_prefill :: rest2 :=
  execTransGo_inv E st.pending_commands st [] rfl hpre hsig

/-- Witness for C4: on the queue `["rm -rf /"]` the loop terminates by
staging the front command. -/
theorem triage_drains_or_stages_front_witness :
    (executeTranslatedCommands env0 stW).state.pending_commands = [] ∨
    ∃ rest2, (executeTranslatedCommands env0 stW).state.pending_commands =
      (executeTranslatedCommands env0 stW).state.prompt_prefill :: rest2 :=
  triage_drains_or_stages_front env0 stW rfl rfl

/-- Counterexample to C4 as stated: on the queue containing only the
safe-prefixed but unbalanced command `cd "`, the triage loop terminates by
propagating the `shlex` `ValueError` with the queue still non-empty and the
prefill still empty — neither drained nor staged. -/
theorem triage_exception_leaves_queue_unstaged :
    (executeTranslatedCommands env0 stC4).signal =
      some (.valueError "No closing quotation") ∧
    (executeTranslatedCommands env0 stC4).state.pending_commands = ["cd \""] ∧
    (executeTranslatedCommands env0 stC4).state.prompt_prefill = "" :=
  ⟨rfl, rfl, rfl⟩

/-- C5: when the working directory exists and the `cd` argument resolves to
a non-directory, `execute` returns code 1 with a `No such directory`
message in stderr, leaves the working directory unchanged, and never
invokes the external process primitive (the result is the same for every
process primitive). -/
theorem cd_missing_directory_fails_cleanly (E : Env) (st : ShellState)
    (raw arg : String) (rest : List String)
    (hne : pyStrip raw ≠ "")
    (hhash : pyStartsWith (pyStrip raw) "#" = false)
    (hint : interpreters.contains (pyLower (pyStrip raw)) = false)
    (hparse : shlexSplit (pyStrip raw) = .ok ("cd" :: arg :: rest))
    (hdir : E.isDir st.cwd = true)
    (hmiss : E.isDir (cdTarget E st.cwd arg) = false) :
    executeCmd E st raw =
      (.ok ⟨1, "", "cd: " ++ cdTarget E st.cwd arg ++ ": No such directory\n",
          "cd " ++ arg⟩,
       recordResult st ⟨1, "",
         "cd: " ++ cdTarget E st.cwd arg ++ ": No such directory\n",
         "cd " ++ arg⟩) ∧
    (recordResult st (⟨1, "",
       "cd: " ++ cdTarget E st.cwd arg ++ ": No such directory\n",
       "cd " ++ arg⟩ : CommandResult)).cwd = st.cwd ∧
    (∀ run2, executeCmd { E with run := run2 } st raw = executeCmd E st raw) := by
  simp only [cdTarget] at hmiss
  have hbc : builtin_cd E st (arg :: rest) =
      (⟨1, "", "cd: " ++ cdTarget E st.cwd arg ++ ": No such directory\n",
        "cd " ++ arg⟩, st) := by
    simp only [builtin_cd, cdTarget]
    rw [if_neg (by rw [hmiss]; decide)]
  refine ⟨?_, rfl, ?_⟩
  · rw [executeCmd_cd_dispatch E st raw (arg :: rest) hne hhash hint hparse, hbc]
    rfl
  · intro run2
    rw [executeCmd_cd_dispatch { E with run := run2 } st raw (arg :: rest)
          hne hhash hint hparse,
        executeCmd_cd_dispatch E st raw (arg :: rest) hne hhash hint hparse]
    cases E
    rfl

/-- Witness for C5: `execute("cd /nonexistent-path-xyz")` from `/home/user`
fails with code 1 and leaves the working directory unchanged. -/
theorem cd_missing_directory_fails_cleanly_witness :
    executeCmd env5 st5 "cd /nonexistent-path-xyz" =
      (.ok ⟨1, "", "cd: /nonexistent-path-xyz: No such directory\n",
          "cd /nonexistent-path-xyz"⟩,
       recordResult st5 ⟨1, "", "cd: /nonexistent-path-xyz: No such directory\n",
         "cd /nonexistent-path-xyz"⟩) ∧
    (recordResult st5 (⟨1, "", "cd: /nonexistent-path-xyz: No such directory\n",
       "cd /nonexistent-path-xyz"⟩ : CommandResult)).cwd = "/home/user" := by
  have h := cd_missing_directory_fails_cleanly env5 st5 "cd /nonexistent-path-xyz"
    "/nonexistent-path-xyz" [] (by decide) rfl rfl rfl rfl rfl
  exact ⟨h.1, h.2.1⟩

/-- C7: for the input `@missing.txt` when the referenced file does not
exist (and stdin is a terminal), `extractContext` returns an empty cleaned
command together with a single context blob carrying the file-not-found
error marker that names the resolved `missing.txt` path; the function is
total — missing files and the clipboard degrade to inline strings. -/
theorem context_extractor_missing_file (B : BufEnv) (st : ShellState)
    (htty : B.stdinIsTTY = true)
    (hmiss : B.isFile (joinPath st.cwd "missing.txt") = false) :
    processInput B st "@missing.txt" =
      ⟨"", ["# Error: File not found: " ++ joinPath st.cwd "missing.txt" ++ "\n"],
       ["missing.txt"]⟩ := by
  have hne : ("# Error: File not found: " ++ joinPath st.cwd "missing.txt"
      ++ "\n") ≠ "" :=
    str_append_ne_empty _ _ (str_append_ne_empty _ _ (by decide))
  have hread : readFileB B st "missing.txt" =
      "# Error: File not found: " ++ joinPath st.cwd "missing.txt" ++ "\n" := by
    simp [readFileB, show isabs "missing.txt" = false from rfl, hmiss]
  simp [processInput, htty, show findFileRefs "@missing.txt" = ["missing.txt"] from rfl,
    hread, hne,
    show strContains "missing.txt" "*" = false from rfl,
    show strContains "@missing.txt" "{clipboard}" = false from rfl,
    show strContains "@missing.txt" "{clip}" = false from rfl,
    show pyStrip (pyReplace (pyReplace (pyReplace "@missing.txt" "@missing.txt" "")
      "{clipboard}" "") "{clip}" "") = "" from rfl]

/-- Witness for C7: the concrete round trip from `/w`. -/
theorem context_extractor_missing_file_witness :
    processInput buf0 st0 "@missing.txt" =
      ⟨"", ["# Error: File not found: /w/missing.txt\n"], ["missing.txt"]⟩ :=
  context_extractor_missing_file buf0 st0 rfl rfl

/-- C9: a non-builtin command whose external execution exceeds the
300-second timeout yields a structured result with return code 124 and the
timeout message in stderr, rather than a raised fault. -/
theorem external_timeout_maps_to_124 (E : Env) (st : ShellState)
    (raw : String) (parts : List String)
    (hne : pyStrip raw ≠ "")
    (hhash : pyStartsWith (pyStrip raw) "#" = false)
    (hint : interpreters.contains (pyLower (pyStrip raw)) = false)
    (hparse : shlexSplit (pyStrip raw) = .ok parts)
    (hnb : ∀ t, parts.head? = some t → builtinNames.contains t = false)
    (htime : E.run (pyStrip raw) st.cwd st.env = .timeout) :
    executeCmd E st raw =
      (.ok ⟨124, "", "Command timed out after 5 minutes", pyStrip raw⟩,
       recordResult st ⟨124, "", "Command timed out after 5 minutes",
         pyStrip raw⟩) := by
  rw [executeCmd_external E st raw parts hne hhash hint hparse hnb]
  unfold runExternal
  rw [htime]

/-- Witness for C9: `sleep 999` under an always-timing-out process
primitive. -/
theorem external_timeout_maps_to_124_witness :
    executeCmd env0 st0 "sleep 999" =
      (.ok ⟨124, "", "Command timed out after 5 minutes", "sleep 999"⟩,
       recordResult st0 ⟨124, "", "Command timed out after 5 minutes",
         "sleep 999"⟩) :=
  external_timeout_maps_to_124 env0 st0 "sleep 999" ["sleep", "999"]
    (by decide) rfl rfl rfl
    (fun t ht => by
      have h : t = "sleep" := by simpa using ht.symm
      subst h; decide)
    rfl

end Webwright
